import Mathlib

/-!
Shallow embedding of the `llvm-to-sierra` lowering pass (`src/main.rs`,
`src/utils.rs`).  The in-memory LLVM SSA CFG delivered by inkwell is modelled
by `Value`, `Instr`, `Block` and `LlvmFunction`; the Sierra output side by
`VarId`, `GenStatement`, `Program`.  The mutable `SierraBuilder` struct is
modelled by an explicit state record threaded through the pass; Rust `HashMap`s
become association lists (insert = cons, lookup = first hit, which matches the
overwrite-on-insert semantics), Rust `HashSet`s become lists with
insert-if-absent (set iteration order, unspecified in Rust, is determinized to
insertion order).  Rust panics (`unwrap`, `expect`, `assert_eq!`) are modelled
by `Except Err`.  The fields `allocLog` and `bindLog` are ghost instrumentation
only: `allocLog` records every id handed out by `next_var`, `bindLog` records
every key written into the `variables` binding table; no other definition reads
them, so they do not influence the computed program.
-/

namespace LlvmToSierra

inductive Opcode
  | icmp
  | add
  | br
  | ret
  | phi
  | unsupported
deriving DecidableEq, Repr

inductive Pred
  | eq
  | ne
  | slt
  | ult
deriving DecidableEq, Repr

/-- The predicate string of `SierraBuilder::compile`: only `EQ` is mapped to
`"eq"`, every other predicate falls into the `"baboum"` catch-all. -/
def Pred.str : Pred → String
  | .eq => "eq"
  | _ => "baboum"

/-- LLVM value identities (`BasicValueEnum`): a function parameter, an
instruction result, or an integer literal.  Literal constants are uniqued by
LLVM, so structural equality on `constInt` models the constant pool. -/
inductive Value
  | param (fid pid : Nat) (ty nm : String)
  | instrResult (id : Nat) (ty nm : String)
  | constInt (ty : String) (v : Int)
deriving DecidableEq, Repr

/-- The type name as LLVM's `print_to_string` renders it (no quote marks). -/
def Value.ty : Value → String
  | .param _ _ t _ => t
  | .instrResult _ t _ => t
  | .constInt t _ => t

/-- The name returned by `get_name` (empty for constants). -/
def Value.nm : Value → String
  | .param _ _ _ n => n
  | .instrResult _ _ n => n
  | .constInt _ _ => ""

/-- Inkwell's `get_type().to_string()` wraps the printed type in quote
characters; the Rust code strips them again before use. -/
def Value.tyQuoted (v : Value) : String := "\"" ++ v.ty ++ "\""

def Value.isConstantInt : Value → Bool
  | .constInt _ _ => true
  | _ => false

/-- Instructions of the supported LLVM subset.  `icmp`/`add`/`phi` carry the
id and name of their result value and its printed result type; `br` carries
the condition and its two successor blocks in the order the Rust code reads
them (`get_operand_unchecked(1)` and `(2)`). -/
inductive Instr
  | icmp (id : Nat) (nm : String) (pred : Pred) (lhs rhs : Value) (retTy : String)
  | add (id : Nat) (nm : String) (lhs rhs : Value) (retTy : String)
  | br (cond : Value) (dest1 dest2 : Nat)
  | ret (ops : List Value)
  | phi (id : Nat) (nm : String) (retTy : String) (incs : List (Value × Nat))
  | unsupported
deriving DecidableEq, Repr

structure Block where
  id : Nat
  instrs : List Instr
deriving DecidableEq, Repr

structure LlvmFunction where
  params : List Value
  blocks : List Block
deriving DecidableEq, Repr

structure VarId where
  id : Nat
  debug_name : Option String
deriving DecidableEq, Repr

inductive GenericArg
  | type (ty : String)
  | value (v : Int)
deriving DecidableEq, Repr

structure TypeDeclaration where
  id : String
  generic_id : String
  storable : Bool
  droppable : Bool
  duplicatable : Bool
  zero_sized : Bool
deriving DecidableEq, Repr

structure LibfuncDeclaration where
  id : String
  generic_id : String
  generic_args : List GenericArg
deriving DecidableEq, Repr

inductive BranchTarget
  | fallthrough
  | statement (idx : Nat)
deriving DecidableEq, Repr

structure BranchInfo where
  target : BranchTarget
  results : List VarId
deriving DecidableEq, Repr

inductive GenStatement
  | invocation (libfunc_id : String) (args : List VarId) (branches : List BranchInfo)
  | ret (vars : List VarId)
deriving DecidableEq, Repr

structure Program where
  type_declarations : List TypeDeclaration
  libfunc_declarations : List LibfuncDeclaration
  statements : List GenStatement
deriving DecidableEq, Repr

/-- Errors modelling the Rust panics: the `assert_eq!` on operand types in
`build_binary_int_func`, the `unwrap`/`expect` on `variables.get`, the
`unwrap` on `block_remapping.get`, and the `unwrap` on `jumps.get`. -/
inductive Err
  | typeMismatch
  | unboundValue
  | unresolvedBlock
  | unresolvedJump
deriving DecidableEq, Repr

def alookup {α β : Type} [DecidableEq α] : List (α × β) → α → Option β
  | [], _ => none
  | (k, v) :: l, a => if k = a then some v else alookup l a

/-- `HashSet::insert`: returns whether the element was newly inserted. -/
def insertNew {α : Type} [DecidableEq α] (l : List α) (x : α) : Bool × List α :=
  if x ∈ l then (false, l) else (true, l ++ [x])

/-- `ty.retain(|c| c != '"')`. -/
def stripQuotes (s : String) : String := ⟨s.data.filter (fun c => c ≠ '"')⟩

def joinSep (sep : String) : List String → String
  | [] => ""
  | [x] => x
  | x :: xs => x ++ sep ++ joinSep sep xs

/-- Rendering of a variable in Sierra's `Display`: the debug name when
present, the numeric id otherwise. -/
def VarId.str (v : VarId) : String :=
  "[" ++ (match v.debug_name with | some n => n | none => toString v.id) ++ "]"

def BranchTarget.str : BranchTarget → String
  | .fallthrough => ""
  | .statement n => toString n

def BranchInfo.str (b : BranchInfo) : String :=
  b.target.str ++ "(" ++ joinSep ", " (b.results.map VarId.str) ++ ")"

/-- Model of `GenStatement`'s `Display` (`statement.to_string()` in Rust).
What matters for the pass is that two statements with equal components render
equally — in particular every placeholder jump renders to the same string. -/
def GenStatement.str : GenStatement → String
  | .invocation f args brs =>
      f ++ "(" ++ joinSep ", " (args.map VarId.str) ++ ") \x7b "
        ++ joinSep " " (brs.map BranchInfo.str) ++ " \x7d"
  | .ret vs => "return(" ++ joinSep ", " (vs.map VarId.str) ++ ")"

def hasPrefixChars : List Char → List Char → Bool
  | _, [] => true
  | [], _ :: _ => false
  | c :: cs, p :: ps => c = p && hasPrefixChars cs ps

def hasSubChars : List Char → List Char → Bool
  | [], pat => hasPrefixChars [] pat
  | c :: cs, pat => hasPrefixChars (c :: cs) pat || hasSubChars cs pat

/-- Model of Rust's `str::contains("jump")` used by the resolution pass. -/
def containsJump (s : String) : Bool := hasSubChars s.data "jump".data

structure SierraBuilder where
  libfuncs : List String
  funcs : List (String × Opcode)
  types : List String
  program : Program
  varMap : List (Value × VarId)
  block_remapping : List (Nat × Nat)
  jumps : List (List Char × (Nat × Nat))
  jump_to_phi : List (Nat × List (VarId × String × Value))
  next_var : Nat
  allocLog : List Nat
  bindLog : List Value
deriving DecidableEq, Repr

def initBuilder : SierraBuilder :=
  { libfuncs := [], funcs := [], types := [],
    program := { type_declarations := [], libfunc_declarations := [], statements := [] },
    varMap := [], block_remapping := [], jumps := [], jump_to_phi := [],
    next_var := 0, allocLog := [], bindLog := [] }

/-- `SierraBuilder::next_var`: hand out the counter and increment it. -/
def SierraBuilder.nextVar (b : SierraBuilder) : Nat × SierraBuilder :=
  (b.next_var,
   { b with next_var := b.next_var + 1, allocLog := b.allocLog ++ [b.next_var] })

/-- `self.variables.insert(v, x)` (plus the ghost write log). -/
def SierraBuilder.bindVar (b : SierraBuilder) (v : Value) (x : VarId) : SierraBuilder :=
  { b with varMap := (v, x) :: b.varMap, bindLog := b.bindLog ++ [v] }

def SierraBuilder.lookupVar (b : SierraBuilder) (v : Value) : Option VarId :=
  alookup b.varMap v

/-- `SierraBuilder::insert_type`. -/
def SierraBuilder.insert_type (b : SierraBuilder) (ty0 : String) : SierraBuilder :=
  let ty := stripQuotes ty0
  if ty ∈ b.types then b
  else
    { b with
      types := b.types ++ [ty],
      program := { b.program with
        type_declarations := b.program.type_declarations ++
          [{ id := ty, generic_id := ty, storable := true, droppable := true,
             duplicatable := true, zero_sized := false }] } }

/-- `SierraBuilder::insert_param`. -/
def SierraBuilder.insert_param (b : SierraBuilder) (p : Value) : SierraBuilder :=
  let b := b.insert_type p.tyQuoted
  let (nv, b) := b.nextVar
  b.bindVar p ⟨nv, some p.nm⟩

/-- `SierraBuilder::push_simple_basic_statement`. -/
def SierraBuilder.push_simple_basic_statement (b : SierraBuilder) (libfunc_id : String)
    (args results : List VarId) : SierraBuilder :=
  { b with program := { b.program with
      statements := b.program.statements ++
        [GenStatement.invocation libfunc_id args [⟨BranchTarget.fallthrough, results⟩]] } }

def storeTempDecl (ty : String) : LibfuncDeclaration :=
  { id := "store_temp", generic_id := "store_temp", generic_args := [GenericArg.type ty] }

/-- `SierraBuilder::push_store_temp_statement`: the declaration set is keyed by
the bare string `"store_temp"`, so only the first store-temp's type is ever
declared. -/
def SierraBuilder.push_store_temp_statement (b : SierraBuilder) (libfunc_id : String)
    (ty : String) (args results : List VarId) : SierraBuilder :=
  let (isNew, lf) := insertNew b.libfuncs "store_temp"
  let b :=
    { b with libfuncs := lf,
             program := { b.program with
               libfunc_declarations := b.program.libfunc_declarations ++
                 (if isNew then [storeTempDecl ty] else []) } }
  b.push_simple_basic_statement libfunc_id args results

/-- `SierraBuilder::build_jump_basic_statement`. -/
def build_jump_basic_statement (libfunc_id : String) (dest1 dest2 : Nat) : GenStatement :=
  GenStatement.invocation libfunc_id []
    [⟨BranchTarget.statement dest1, []⟩, ⟨BranchTarget.statement dest2, []⟩]

def constFnName (ty : String) (v : Int) : String :=
  "const_as_immediate<" ++ ty ++ ", " ++ toString v ++ ">"

def constDebugName (ty : String) (v : Int) : String :=
  "const_" ++ ty ++ "<" ++ toString v ++ ">"

def constDecl (ty : String) (v : Int) : LibfuncDeclaration :=
  { id := constFnName ty v, generic_id := "const",
    generic_args := [GenericArg.type ty, GenericArg.value v] }

/-- `SierraBuilder::add_const_if_const`: when the operand is a literal, declare
the const libfunc on first use, emit one zero-input producer statement and
rebind the literal's identity to a fresh variable. -/
def SierraBuilder.add_const_if_const (b : SierraBuilder) (val : Value) (ty : String) :
    SierraBuilder :=
  match val with
  | .constInt _ v =>
    let fn_name := constFnName ty v
    let (isNew, lf) := insertNew b.libfuncs fn_name
    let b :=
      { b with libfuncs := lf,
               program := { b.program with
                 libfunc_declarations := b.program.libfunc_declarations ++
                   (if isNew then [constDecl ty v] else []) } }
    let (nv, b) := b.nextVar
    let fresh : VarId := ⟨nv, some (constDebugName ty v)⟩
    let b := b.push_simple_basic_statement fn_name [] [fresh]
    b.bindVar val fresh
  | _ => b

/-- `SierraBuilder::build_binary_int_func`: shared by ICmp and Add lowering.
The `assert_eq!` on the two operands' stripped types is modelled by
`Err.typeMismatch`; the `unwrap`s on the operand lookups by
`Err.unboundValue`.  The result is bound in `variables` with no debug name
(the Rust code sets the name only on the clone placed in the statement). -/
def SierraBuilder.build_binary_int_func (b : SierraBuilder) (lhs rhs : Value)
    (rid : Nat) (rnm rty : String) (concrete_id : String) : Except Err SierraBuilder :=
  let first_ty := stripQuotes lhs.tyQuoted
  let scnd_ty := stripQuotes rhs.tyQuoted
  if first_ty = scnd_ty then
    let b := b.insert_type first_ty
    let b := b.add_const_if_const lhs first_ty
    let b := b.add_const_if_const rhs scnd_ty
    match b.lookupVar lhs, b.lookupVar rhs with
    | some a1, some a2 =>
      let (nv, b) := b.nextVar
      let b := b.bindVar (Value.instrResult rid rty rnm) ⟨nv, none⟩
      let res : VarId := ⟨nv, if rnm = "" then none else some rnm⟩
      Except.ok (b.push_simple_basic_statement concrete_id [a1, a2] [res])
    | _, _ => Except.error Err.unboundValue
  else Except.error Err.typeMismatch

def jumpDecl : LibfuncDeclaration := { id := "jump", generic_id := "jump", generic_args := [] }

/-- Model of `LibfuncDeclaration`'s `Display`; the Rust code uses it as the
dedup key for the jump declaration (`libfuncs.insert(func.to_string())`). -/
def declStr (d : LibfuncDeclaration) : String := d.id ++ " = " ++ d.generic_id

/-- Drain of the phi-edge requirement set at a `Br`: one `store_temp` per
recorded `(destination, type, source)` triple, each source read through the
binding table (`expect` on failure). -/
def SierraBuilder.drainPhis (b : SierraBuilder) :
    List (VarId × String × Value) → Except Err SierraBuilder
  | [] => Except.ok b
  | (var_id, ty, v) :: rest =>
    match b.lookupVar v with
    | some arg => (b.push_store_temp_statement "store_temp" ty [arg] [var_id]).drainPhis rest
    | none => Except.error Err.unboundValue

/-- The per-instruction match of `SierraBuilder::compile`'s main loop. -/
def SierraBuilder.lowerInstr (b : SierraBuilder) (blockId : Nat) :
    Instr → Except Err SierraBuilder
  | .icmp rid rnm pred lhs rhs rty => do
    let cond := pred.str
    let ty := lhs.ty
    let nm := ty ++ "_" ++ cond
    let b ← b.build_binary_int_func lhs rhs rid rnm rty nm
    let (isNew, fs) := insertNew b.funcs (ty, Opcode.icmp)
    pure { b with funcs := fs,
                  program := { b.program with
                    libfunc_declarations := b.program.libfunc_declarations ++
                      (if isNew then [⟨nm, nm, []⟩] else []) } }
  | .add rid rnm lhs rhs rty =>
    b.build_binary_int_func lhs rhs rid rnm rty (rty ++ "_add")
  | .br _cond d1 d2 => do
    let phis := (alookup b.jump_to_phi blockId).getD []
    let b ← b.drainPhis phis
    let (isNew, lf) := insertNew b.libfuncs (declStr jumpDecl)
    let b :=
      { b with libfuncs := lf,
               program := { b.program with
                 libfunc_declarations := b.program.libfunc_declarations ++
                   (if isNew then [jumpDecl] else []) } }
    let st := build_jump_basic_statement "jump" 4294967295 4294967295
    pure { b with
      program := { b.program with statements := b.program.statements ++ [st] },
      jumps := ((GenStatement.str st).data, (d1, d2)) :: b.jumps }
  | .ret ops => do
    let vars ← ops.mapM (fun op =>
      match b.lookupVar op with
      | some v => pure v
      | none => Except.error Err.unboundValue)
    pure { b with program := { b.program with
      statements := b.program.statements ++ [GenStatement.ret vars] } }
  | .phi _ _ _ _ => pure b
  | .unsupported => pure b

def SierraBuilder.lowerInstrs (b : SierraBuilder) (blockId : Nat) :
    List Instr → Except Err SierraBuilder
  | [] => Except.ok b
  | i :: is => do
    let b' ← b.lowerInstr blockId i
    b'.lowerInstrs blockId is

/-- Record the block's first statement index, then lower its instructions. -/
def SierraBuilder.lowerBlock (b : SierraBuilder) (blk : Block) : Except Err SierraBuilder :=
  let b := { b with
    block_remapping := (blk.id, b.program.statements.length) :: b.block_remapping }
  b.lowerInstrs blk.id blk.instrs

def SierraBuilder.lowerBlocks (b : SierraBuilder) : List Block → Except Err SierraBuilder
  | [] => Except.ok b
  | blk :: bs => do
    let b' ← b.lowerBlock blk
    b'.lowerBlocks bs

def SierraBuilder.lowerFunction (b : SierraBuilder) (f : LlvmFunction) :
    Except Err SierraBuilder :=
  (f.params.foldl SierraBuilder.insert_param b).lowerBlocks f.blocks

def SierraBuilder.mainPass (b : SierraBuilder) : List LlvmFunction → Except Err SierraBuilder
  | [] => Except.ok b
  | f :: fs => do
    let b' ← b.lowerFunction f
    b'.mainPass fs

/-- The phi pre-pass body for the incoming list of one phi instruction: for
each `(value, predecessor)` pair a `VarId` is built from the running
`first_var_id` counter, the triple is added to the predecessor's requirement
set, the phi's result value is (re)bound to that `VarId`, and the counter is
incremented. -/
def SierraBuilder.prePassIncs (b : SierraBuilder) (rid : Nat) (rty rnm : String) :
    List (Value × Nat) → Nat → Nat × SierraBuilder
  | [], fv => (fv, b)
  | (v, pred) :: rest, fv =>
    let curr := (alookup b.jump_to_phi pred).getD []
    let var_id : VarId := ⟨fv, some v.nm⟩
    let curr := if (var_id, rty, v) ∈ curr then curr else curr ++ [(var_id, rty, v)]
    let b := b.bindVar (Value.instrResult rid rty rnm) var_id
    let b := { b with jump_to_phi := (pred, curr) :: b.jump_to_phi }
    b.prePassIncs rid rty rnm rest (fv + 1)

def SierraBuilder.prePassInstrs (b : SierraBuilder) :
    List Instr → Nat → Nat × SierraBuilder
  | [], fv => (fv, b)
  | .phi rid rnm rty incs :: rest, fv =>
    let (fv', b') := b.prePassIncs rid rty rnm incs fv
    b'.prePassInstrs rest fv'
  | _ :: rest, fv => b.prePassInstrs rest fv

def SierraBuilder.prePassBlocks (b : SierraBuilder) :
    List Block → Nat → Nat × SierraBuilder
  | [], fv => (fv, b)
  | blk :: bs, fv =>
    let (fv', b') := b.prePassInstrs blk.instrs fv
    b'.prePassBlocks bs fv'

/-- Per function: the counter starts at `count_params` and, after all blocks
are scanned, is written back into `builder.next_var`. -/
def SierraBuilder.prePassFun (b : SierraBuilder) (f : LlvmFunction) : SierraBuilder :=
  let (fv, b') := b.prePassBlocks f.blocks f.params.length
  { b' with next_var := fv }

def SierraBuilder.prePass (b : SierraBuilder) : List LlvmFunction → SierraBuilder
  | [] => b
  | f :: fs => (b.prePassFun f).prePass fs

/-- One statement of the resolution pass: any statement whose rendering
contains `"jump"` is rebuilt from the `jumps` entry keyed by that rendering
and the block→index table (`unwrap`s modelled by errors). -/
def SierraBuilder.resolveStatement (b : SierraBuilder) (st : GenStatement) :
    Except Err GenStatement :=
  if containsJump (GenStatement.str st) then
    match alookup b.jumps (GenStatement.str st).data with
    | none => Except.error Err.unresolvedJump
    | some (d1, d2) =>
      match alookup b.block_remapping d1, alookup b.block_remapping d2 with
      | some i1, some i2 => Except.ok (build_jump_basic_statement "jump" i1 i2)
      | _, _ => Except.error Err.unresolvedBlock
  else Except.ok st

def SierraBuilder.resolve (b : SierraBuilder) : Except Err SierraBuilder := do
  let sts ← b.program.statements.mapM b.resolveStatement
  pure { b with program := { b.program with statements := sts } }

/-- `SierraBuilder::compile`: phi pre-pass over all functions, then the main
lowering pass, then the branch resolution pass. -/
def compile (fns : List LlvmFunction) : Except Err SierraBuilder := do
  let b := initBuilder.prePass fns
  let b ← b.mainPass fns
  b.resolve

/-- Projection: the statements of a successful run (empty on failure). -/
def statementsOf (r : Except Err SierraBuilder) : List GenStatement :=
  match r with
  | .ok b => b.program.statements
  | .error _ => []

/-- Projection: the libfunc declarations of a successful run. -/
def declsOf (r : Except Err SierraBuilder) : List LibfuncDeclaration :=
  match r with
  | .ok b => b.program.libfunc_declarations
  | .error _ => []

/-- Projection: the ghost write log of the binding table. -/
def bindLogOf (r : Except Err SierraBuilder) : List Value :=
  match r with
  | .ok b => b.bindLog
  | .error _ => []

def isOkB : Except Err SierraBuilder → Bool
  | .ok _ => true
  | .error _ => false

def okOr (r : Except Err SierraBuilder) (d : SierraBuilder) : SierraBuilder :=
  match r with
  | .ok b => b
  | .error _ => d

/-- The libfunc names invoked by the statements of a run, in order. -/
def stmtLibfuncs (r : Except Err SierraBuilder) : List String :=
  (statementsOf r).filterMap (fun st =>
    match st with
    | .invocation f _ _ => some f
    | .ret _ => none)

def pA : Value := Value.param 0 0 "i32" "a"

def pB : Value := Value.param 0 1 "i32" "b"

def pB64 : Value := Value.param 0 1 "i64" "b"

/-- Result value of the compare `c = icmp eq a, b` used by the two-branch
scenarios. -/
def cmpRes : Value := Value.instrResult 1 "i1" "c"

/-- Two branch instructions with different successor pairs: block 0 branches
to blocks (1, 2), block 1 branches to blocks (2, 1). -/
def c1fn : LlvmFunction :=
  { params := [pA, pB],
    blocks := [
      ⟨0, [Instr.icmp 1 "c" Pred.eq pA pB "i1", Instr.br cmpRes 1 2]⟩,
      ⟨1, [Instr.br cmpRes 2 1]⟩,
      ⟨2, [Instr.ret [pA]]⟩ ] }

/-- The round-trip scenario of the spec: `entry: c = icmp eq a, b; br c,
then, else`, `then: ret 1`, `else: ret 0`. -/
def c2fn : LlvmFunction :=
  { params := [pA, pB],
    blocks := [
      ⟨0, [Instr.icmp 1 "c" Pred.eq pA pB "i1", Instr.br cmpRes 1 2]⟩,
      ⟨1, [Instr.ret [Value.constInt "i32" 1]]⟩,
      ⟨2, [Instr.ret [Value.constInt "i32" 0]]⟩ ] }

/-- Result value of the phi merging `a` (from block 0) and `b` (from
block 1). -/
def c3phi : Value := Value.instrResult 9 "i32" "p"

/-- A function whose block 2 starts with a two-incoming phi. -/
def c3fn : LlvmFunction :=
  { params := [pA, pB],
    blocks := [
      ⟨0, [Instr.br pA 1 2]⟩,
      ⟨1, [Instr.br pA 2 2]⟩,
      ⟨2, [Instr.phi 9 "p" "i32" [(pA, 0), (pB, 1)], Instr.ret [c3phi]]⟩ ] }

/-- One block with an `eq` compare, an `ne` compare over the same operand
type, and an add. -/
def c4fn : LlvmFunction :=
  { params := [pA, pB],
    blocks := [
      ⟨0, [Instr.icmp 1 "c" Pred.eq pA pB "i1",
           Instr.icmp 2 "d" Pred.ne pA pB "i1",
           Instr.add 3 "s" pA pB "i32",
           Instr.ret [pA]]⟩ ] }

/-- An `add` whose operands have different declared types. -/
def c5fn : LlvmFunction :=
  { params := [pA, pB64],
    blocks := [⟨0, [Instr.add 1 "s" pA pB64 "i32", Instr.ret [pA]]⟩] }

/-- A parameter-only function with two parameters of the same type (the
second `insert_type` call is a repeat). -/
def c7fn : LlvmFunction :=
  { params := [pA, pB],
    blocks := [⟨0, [Instr.ret [pA]]⟩] }

/-- Two adds, each with the literal operand `5 : i32`. -/
def c9fn : LlvmFunction :=
  { params := [pA],
    blocks := [
      ⟨0, [Instr.add 1 "x" pA (Value.constInt "i32" 5) "i32",
           Instr.add 2 "y" pA (Value.constInt "i32" 5) "i32",
           Instr.ret [pA]]⟩ ] }

/-- The phi-edge requirement set the `Br` lowering drains for a block
(`jump_to_phi.get(&basic_block)` with the empty-set default). -/
def phisOf (b : SierraBuilder) (blockId : Nat) : List (VarId × String × Value) :=
  (alookup b.jump_to_phi blockId).getD []

/-- The copy statement emitted for one phi-edge requirement triple, with the
source read through `b`'s binding table. -/
def storeStmtOf (b : SierraBuilder) (t : VarId × String × Value) : GenStatement :=
  GenStatement.invocation "store_temp" [(b.lookupVar t.2.2).getD ⟨0, none⟩]
    [⟨BranchTarget.fallthrough, [t.1]⟩]

/-- The libfunc declarations that are not constant-producer declarations. -/
def nonConstDecls (b : SierraBuilder) : List LibfuncDeclaration :=
  b.program.libfunc_declarations.filter (fun d => d.generic_id != "const")

/-- The result ids of the zero-input producer statements invoking `fn`. -/
def producerResults (r : Except Err SierraBuilder) (fn : String) : List Nat :=
  (statementsOf r).filterMap (fun st =>
    match st with
    | .invocation f [] [⟨BranchTarget.fallthrough, [res]⟩] =>
        if f = fn then some res.id else none
    | _ => none)

/-- A builder whose `funcs` set already holds `("i32", ICmp)` and whose
binding table binds the two `i32` parameters. -/
def c4wb : SierraBuilder :=
  { initBuilder with
    funcs := [("i32", Opcode.icmp)],
    varMap := [(pA, ⟨0, some "a"⟩), (pB, ⟨1, some "b"⟩)],
    next_var := 2 }

/-- A builder with one pending phi-edge requirement for block 0 and the
source value bound. -/
def c6wb : SierraBuilder :=
  { initBuilder with
    jump_to_phi := [(0, [(⟨5, some "p"⟩, "i32", pA)])],
    varMap := [(pA, ⟨0, some "a"⟩)] }

/-- Type-registry invariant: the declared type ids list equals the `types`
set in first-insertion order, and the set has no duplicates. -/
def tyInv (b : SierraBuilder) : Prop :=
  b.program.type_declarations.map (fun d => d.id) = b.types ∧ b.types.Nodup

/-- Allocator invariant: the ghost log of handed-out ids is a run of
consecutive numbers and the counter sits one past its last entry. -/
def allocInv (b : SierraBuilder) : Prop :=
  b.allocLog.Chain' (fun x y => y = x + 1) ∧
  ∀ a ∈ b.allocLog.getLast?, b.next_var = a + 1

def binv (b : SierraBuilder) : Prop := tyInv b ∧ allocInv b

def c7b : SierraBuilder := okOr (compile [c7fn]) initBuilder

def c9b : SierraBuilder := okOr (compile [c9fn]) initBuilder

/-- C1: on `c1fn` the two branch statements record the successor pairs
`(1, 2)` (block 0) and `(2, 1)` (block 1).  Block 1 starts at statement 2 and
block 2 at statement 3, so the block-0 branch should resolve to targets
`(2, 3)`; instead both branches resolve to `(3, 2)`, the indices of the LAST
recorded pair, because every placeholder jump renders to the same string and
the string-keyed `jumps` table keeps only the final entry. -/
theorem C1_branch_targets_come_from_last_recorded_pair :
    statementsOf (compile [c1fn]) =
      [GenStatement.invocation "i32_eq" [⟨2, some "a"⟩, ⟨3, some "b"⟩]
         [⟨BranchTarget.fallthrough, [⟨4, some "c"⟩]⟩],
       build_jump_basic_statement "jump" 3 2,
       build_jump_basic_statement "jump" 3 2,
       GenStatement.ret [⟨2, some "a"⟩]] ∧
    alookup (okOr (compile [c1fn]) initBuilder).block_remapping 1 = some 2 ∧
    alookup (okOr (compile [c1fn]) initBuilder).block_remapping 2 = some 3 := by
  decide

/-- C2 counterexample: the two-branch round-trip scenario does not lower to
any statement sequence at all — the run is not successful. -/
theorem C2_counterexample_scenario_fails : isOkB (compile [c2fn]) = false := by
  decide

/-- C2 amended: lowering the scenario aborts with an unbound-value failure at
the first `ret` of a literal, because `Return` lowering looks literals up in
the binding table without materializing them. -/
theorem C2_return_of_literal_is_unbound : compile [c2fn] = Except.error Err.unboundValue := by
  rfl

/-- C3 counterexample: the phi result value of `c3fn` is written into the
binding table twice (once per incoming pair) even though it is not a literal
constant, refuting the write-once-except-constants claim. -/
theorem C3_counterexample_phi_bound_twice :
    (bindLogOf (compile [c3fn])).count c3phi = 2 ∧ c3phi.isConstantInt = false := by
  decide

/-- C4 counterexample: after lowering `c4fn` the statements invoke the
signature names `i32_eq`, `i32_baboum` and `i32_add`, but the declaration
table contains only `i32_eq`: the second compare's name is skipped because
registration is keyed by `(type, opcode)` alone, and Add lowering never
registers its name at all. -/
theorem C4_counterexample_used_names_unregistered :
    (declsOf (compile [c4fn])).map (fun d => d.id) = ["i32_eq"] ∧
    stmtLibfuncs (compile [c4fn]) = ["i32_eq", "i32_baboum", "i32_add"] := by
  decide

/-- C5 counterexample: an `add` whose operands have types `i32` and `i64`
makes the whole run fail with a type mismatch — the assertion lives in the
shared binary-lowering helper, so Add is not exempt from it. -/
theorem C5_counterexample_add_type_mismatch :
    compile [c5fn] = Except.error Err.typeMismatch := by
  rfl

lemma insertNew_mem {α : Type} [DecidableEq α] {l : List α} {x : α} (h : x ∈ l) :
    insertNew l x = (false, l) := by
  unfold insertNew
  rw [if_pos h]

lemma insertNew_not_mem {α : Type} [DecidableEq α] {l : List α} {x : α} (h : x ∉ l) :
    insertNew l x = (true, l ++ [x]) := by
  unfold insertNew
  rw [if_neg h]

lemma bindVar_eq (b : SierraBuilder) (v : Value) (x : VarId) :
    b.bindVar v x = { b with varMap := (v, x) :: b.varMap, bindLog := b.bindLog ++ [v] } := rfl

lemma nextVar_eq (b : SierraBuilder) :
    b.nextVar = (b.next_var,
      { b with next_var := b.next_var + 1, allocLog := b.allocLog ++ [b.next_var] }) := rfl

lemma push_simple_eq (b : SierraBuilder) (f : String) (args results : List VarId) :
    b.push_simple_basic_statement f args results =
      { b with program := { b.program with
          statements := b.program.statements ++
            [GenStatement.invocation f args [⟨BranchTarget.fallthrough, results⟩]] } } := rfl

lemma push_store_temp_eq (b : SierraBuilder) (lf ty : String) (args results : List VarId) :
    b.push_store_temp_statement lf ty args results =
      { b with
        libfuncs := (insertNew b.libfuncs "store_temp").2,
        program := { b.program with
          libfunc_declarations := b.program.libfunc_declarations ++
            (if (insertNew b.libfuncs "store_temp").1 then [storeTempDecl ty] else []),
          statements := b.program.statements ++
            [GenStatement.invocation lf args [⟨BranchTarget.fallthrough, results⟩]] } } := rfl

lemma add_const_const_eq (b : SierraBuilder) (cty ty : String) (v : Int) :
    b.add_const_if_const (Value.constInt cty v) ty =
      { b with
        libfuncs := (insertNew b.libfuncs (constFnName ty v)).2,
        program := { b.program with
          libfunc_declarations := b.program.libfunc_declarations ++
            (if (insertNew b.libfuncs (constFnName ty v)).1 then [constDecl ty v] else []),
          statements := b.program.statements ++
            [GenStatement.invocation (constFnName ty v) []
              [⟨BranchTarget.fallthrough, [⟨b.next_var, some (constDebugName ty v)⟩]⟩]] },
        varMap := (Value.constInt cty v, ⟨b.next_var, some (constDebugName ty v)⟩) :: b.varMap,
        next_var := b.next_var + 1,
        allocLog := b.allocLog ++ [b.next_var],
        bindLog := b.bindLog ++ [Value.constInt cty v] } := rfl

lemma add_const_nonconst (b : SierraBuilder) (val : Value) (ty : String)
    (h : val.isConstantInt = false) : b.add_const_if_const val ty = b := by
  cases val
  case constInt => simp [Value.isConstantInt] at h
  all_goals rfl

lemma insert_type_mem {b : SierraBuilder} {ty : String} (h : stripQuotes ty ∈ b.types) :
    b.insert_type ty = b := by
  unfold SierraBuilder.insert_type
  rw [if_pos h]

lemma insert_type_not_mem {b : SierraBuilder} {ty : String} (h : stripQuotes ty ∉ b.types) :
    b.insert_type ty =
      { b with
        types := b.types ++ [stripQuotes ty],
        program := { b.program with
          type_declarations := b.program.type_declarations ++
            [{ id := stripQuotes ty, generic_id := stripQuotes ty, storable := true,
               droppable := true, duplicatable := true, zero_sized := false }] } } := by
  unfold SierraBuilder.insert_type
  rw [if_neg h]

/-- C10: branch lowering ignores the condition value entirely (lowering a
`br` with any two conditions gives identical results, so the condition is
never looked up in the binding table), the jump statement constructor carries
an empty input-variable list, and in the resolved artifact of the two-branch
program every `jump` invocation has no arguments. -/
theorem C10_branches_are_condition_free :
    (∀ (b : SierraBuilder) (blockId : Nat) (c c' : Value) (d1 d2 : Nat),
        b.lowerInstr blockId (Instr.br c d1 d2) = b.lowerInstr blockId (Instr.br c' d1 d2)) ∧
    (∀ (f : String) (d1 d2 : Nat),
        build_jump_basic_statement f d1 d2 =
          GenStatement.invocation f []
            [⟨BranchTarget.statement d1, []⟩, ⟨BranchTarget.statement d2, []⟩]) ∧
    (statementsOf (compile [c1fn])).all (fun st =>
      match st with
      | GenStatement.invocation f args _ => f != "jump" || args.isEmpty
      | GenStatement.ret _ => true) = true := by
  refine ⟨fun b blockId c c' d1 d2 => rfl, fun f d1 d2 => rfl, ?_⟩
  decide

lemma prePassIncs_fst (rid : Nat) (rty rnm : String) :
    ∀ (incs : List (Value × Nat)) (b : SierraBuilder) (fv : Nat),
      (b.prePassIncs rid rty rnm incs fv).1 = fv + incs.length
  | [], b, fv => by simp [SierraBuilder.prePassIncs]
  | (v, pred) :: tl, b, fv => by
    have step : b.prePassIncs rid rty rnm ((v, pred) :: tl) fv =
        SierraBuilder.prePassIncs _ rid rty rnm tl (fv + 1) := rfl
    rw [step, prePassIncs_fst rid rty rnm tl _ (fv + 1)]
    simp
    omega

lemma prePassIncs_bindLog (rid : Nat) (rty rnm : String) :
    ∀ (incs : List (Value × Nat)) (b : SierraBuilder) (fv : Nat),
      (b.prePassIncs rid rty rnm incs fv).2.bindLog =
        b.bindLog ++ List.replicate incs.length (Value.instrResult rid rty rnm)
  | [], b, fv => by simp [SierraBuilder.prePassIncs]
  | (v, pred) :: tl, b, fv => by
    have step : b.prePassIncs rid rty rnm ((v, pred) :: tl) fv =
        SierraBuilder.prePassIncs _ rid rty rnm tl (fv + 1) := rfl
    rw [step, prePassIncs_bindLog rid rty rnm tl _ (fv + 1)]
    simp [bindVar_eq, List.replicate_succ]

lemma prePassIncs_varMap_ids (rid : Nat) (rty rnm : String) :
    ∀ (incs : List (Value × Nat)) (b : SierraBuilder) (fv : Nat),
      (b.prePassIncs rid rty rnm incs fv).2.varMap.map (fun p => p.2.id) =
        (List.range' fv incs.length).reverse ++ b.varMap.map (fun p => p.2.id)
  | [], b, fv => by simp [SierraBuilder.prePassIncs]
  | (v, pred) :: tl, b, fv => by
    have step : b.prePassIncs rid rty rnm ((v, pred) :: tl) fv =
        SierraBuilder.prePassIncs _ rid rty rnm tl (fv + 1) := rfl
    rw [step, prePassIncs_varMap_ids rid rty rnm tl _ (fv + 1)]
    simp [bindVar_eq, List.range'_succ]

/-- C3 amended: for every phi, the pre-pass performs one binding-table write
per incoming `(value, predecessor)` pair — each with a freshly built
destination variable whose id is the running counter, so the ids bound for
the successive pairs are `fv, fv + 1, …` — and returns the counter advanced
by the number of pairs.  There is no single reused destination variable. -/
theorem C3_prepass_rebinds_phi_once_per_incoming (b : SierraBuilder) (rid : Nat)
    (rty rnm : String) (incs : List (Value × Nat)) (fv : Nat) :
    (b.prePassIncs rid rty rnm incs fv).1 = fv + incs.length ∧
    (b.prePassIncs rid rty rnm incs fv).2.bindLog =
      b.bindLog ++ List.replicate incs.length (Value.instrResult rid rty rnm) ∧
    (b.prePassIncs rid rty rnm incs fv).2.varMap.map (fun p => p.2.id) =
      (List.range' fv incs.length).reverse ++ b.varMap.map (fun p => p.2.id) :=
  ⟨prePassIncs_fst rid rty rnm incs b fv, prePassIncs_bindLog rid rty rnm incs b fv,
    prePassIncs_varMap_ids rid rty rnm incs b fv⟩

/-- C9: constant materialization always appends exactly one zero-input
producer statement whose fresh result variable carries the current counter
id, advances the counter, rebinds the literal to that fresh variable, and
appends the constant-producer declaration exactly when the `(type, value)`
derived name was not registered before (so a recurrence of the same pair adds
no declaration).  Concretely, compiling two adds that both use the literal
`5 : i32` yields one `const_as_immediate<i32, 5>` declaration and two
producer statements with distinct fresh result variables `2` and `4`. -/
theorem C9_const_materialized_once_per_pair :
    (∀ (b : SierraBuilder) (cty ty : String) (v : Int),
      (b.add_const_if_const (Value.constInt cty v) ty).program.libfunc_declarations =
        b.program.libfunc_declarations ++
          (if constFnName ty v ∈ b.libfuncs then [] else [constDecl ty v]) ∧
      (b.add_const_if_const (Value.constInt cty v) ty).program.statements =
        b.program.statements ++
          [GenStatement.invocation (constFnName ty v) []
            [⟨BranchTarget.fallthrough, [⟨b.next_var, some (constDebugName ty v)⟩]⟩]] ∧
      (b.add_const_if_const (Value.constInt cty v) ty).next_var = b.next_var + 1 ∧
      (b.add_const_if_const (Value.constInt cty v) ty).lookupVar (Value.constInt cty v) =
        some ⟨b.next_var, some (constDebugName ty v)⟩) ∧
    (declsOf (compile [c9fn])).count (constDecl "i32" 5) = 1 ∧
    stmtLibfuncs (compile [c9fn]) =
      ["const_as_immediate<i32, 5>", "i32_add", "const_as_immediate<i32, 5>", "i32_add"] ∧
    producerResults (compile [c9fn]) "const_as_immediate<i32, 5>" = [2, 4] := by
  refine ⟨fun b cty ty v => ?_, by decide, by decide, by decide⟩
  by_cases h : constFnName ty v ∈ b.libfuncs
  · rw [add_const_const_eq]
    simp [insertNew_mem h, h, SierraBuilder.lookupVar, alookup]
  · rw [add_const_const_eq]
    simp [insertNew_not_mem h, h, SierraBuilder.lookupVar, alookup]

lemma exceptBind_ok {ε α β : Type} (a : α) (f : α → Except ε β) :
    (Except.ok a >>= f) = f a := rfl

lemma exceptBind_error {ε α β : Type} (e : ε) (f : α → Except ε β) :
    ((Except.error e : Except ε α) >>= f) = Except.error e := rfl

lemma exceptPure {ε α : Type} (a : α) : (pure a : Except ε α) = Except.ok a := rfl

lemma exceptMap_ok {ε α β : Type} (a : α) (f : α → β) :
    Except.map f (Except.ok a : Except ε α) = Except.ok (f a) := rfl

lemma exceptMap_error {ε α β : Type} (e : ε) (f : α → β) :
    Except.map f (Except.error e : Except ε α) = Except.error e := rfl

lemma insert_type_funcs (b : SierraBuilder) (ty : String) :
    (b.insert_type ty).funcs = b.funcs := by
  simp only [SierraBuilder.insert_type]
  split <;> rfl

lemma insert_type_lfDecls (b : SierraBuilder) (ty : String) :
    (b.insert_type ty).program.libfunc_declarations = b.program.libfunc_declarations := by
  simp only [SierraBuilder.insert_type]
  split <;> rfl

lemma add_const_funcs (b : SierraBuilder) (val : Value) (ty : String) :
    (b.add_const_if_const val ty).funcs = b.funcs := by
  cases val
  case constInt cty v => rw [add_const_const_eq]
  all_goals rfl

lemma nonConstDecls_insert_type (b : SierraBuilder) (ty : String) :
    nonConstDecls (b.insert_type ty) = nonConstDecls b := by
  unfold nonConstDecls
  rw [insert_type_lfDecls]

lemma nonConstDecls_push_simple (b : SierraBuilder) (f : String) (args results : List VarId) :
    nonConstDecls (b.push_simple_basic_statement f args results) = nonConstDecls b := rfl

lemma nonConstDecls_bindVar (b : SierraBuilder) (v : Value) (x : VarId) :
    nonConstDecls (b.bindVar v x) = nonConstDecls b := rfl

lemma nonConstDecls_nextVar (b : SierraBuilder) :
    nonConstDecls b.nextVar.2 = nonConstDecls b := rfl

lemma nonConstDecls_add_const (b : SierraBuilder) (val : Value) (ty : String) :
    nonConstDecls (b.add_const_if_const val ty) = nonConstDecls b := by
  cases val
  case constInt cty v =>
    rw [add_const_const_eq]
    unfold nonConstDecls
    simp only [List.filter_append]
    split <;> simp [constDecl]
  all_goals rfl

lemma lowerInstr_add_eq (b : SierraBuilder) (blockId rid : Nat) (rnm : String)
    (lhs rhs : Value) (rty : String) :
    b.lowerInstr blockId (Instr.add rid rnm lhs rhs rty) =
      b.build_binary_int_func lhs rhs rid rnm rty (rty ++ "_add") := rfl

lemma build_binary_eq_of_types_ne {lhs rhs : Value}
    (hty : stripQuotes lhs.tyQuoted ≠ stripQuotes rhs.tyQuoted)
    (b : SierraBuilder) (rid : Nat) (rnm rty cid : String) :
    b.build_binary_int_func lhs rhs rid rnm rty cid = Except.error Err.typeMismatch := by
  simp only [SierraBuilder.build_binary_int_func]
  rw [if_neg hty]

lemma build_binary_tm_iff (b : SierraBuilder) (lhs rhs : Value) (rid : Nat)
    (rnm rty cid : String) :
    b.build_binary_int_func lhs rhs rid rnm rty cid = Except.error Err.typeMismatch ↔
      stripQuotes lhs.tyQuoted ≠ stripQuotes rhs.tyQuoted := by
  by_cases hty : stripQuotes lhs.tyQuoted = stripQuotes rhs.tyQuoted
  · constructor
    · intro hc
      simp only [SierraBuilder.build_binary_int_func] at hc
      rw [if_pos hty] at hc
      split at hc <;> simp at hc
    · intro hne
      exact absurd hty hne
  · simp [build_binary_eq_of_types_ne hty, hty]

lemma build_binary_ok_types {b b' : SierraBuilder} {lhs rhs : Value} {rid : Nat}
    {rnm rty cid : String}
    (h : b.build_binary_int_func lhs rhs rid rnm rty cid = Except.ok b') :
    stripQuotes lhs.tyQuoted = stripQuotes rhs.tyQuoted := by
  by_cases hty : stripQuotes lhs.tyQuoted = stripQuotes rhs.tyQuoted
  · exact hty
  · rw [build_binary_eq_of_types_ne hty] at h
    simp at h

lemma nonConstDecls_build_binary {b b' : SierraBuilder} {lhs rhs : Value} {rid : Nat}
    {rnm rty cid : String}
    (h : b.build_binary_int_func lhs rhs rid rnm rty cid = Except.ok b') :
    nonConstDecls b' = nonConstDecls b := by
  have hty := build_binary_ok_types h
  simp only [SierraBuilder.build_binary_int_func] at h
  rw [if_pos hty] at h
  split at h
  next a1 a2 h1 h2 =>
    injection h with h
    subst h
    rw [nonConstDecls_push_simple, nonConstDecls_bindVar, nonConstDecls_nextVar,
      nonConstDecls_add_const, nonConstDecls_add_const, nonConstDecls_insert_type]
  next => simp at h

lemma funcs_build_binary {b b' : SierraBuilder} {lhs rhs : Value} {rid : Nat}
    {rnm rty cid : String}
    (h : b.build_binary_int_func lhs rhs rid rnm rty cid = Except.ok b') :
    b'.funcs = b.funcs := by
  have hty := build_binary_ok_types h
  simp only [SierraBuilder.build_binary_int_func] at h
  rw [if_pos hty] at h
  split at h
  next a1 a2 h1 h2 =>
    injection h with h
    subst h
    rw [show ∀ (c : SierraBuilder) (f : String) (a r : List VarId),
        (c.push_simple_basic_statement f a r).funcs = c.funcs from fun _ _ _ _ => rfl]
    rw [show ∀ (c : SierraBuilder) (v : Value) (x : VarId),
        (c.bindVar v x).funcs = c.funcs from fun _ _ _ => rfl]
    rw [show ∀ (c : SierraBuilder), c.nextVar.2.funcs = c.funcs from fun _ => rfl]
    rw [add_const_funcs, add_const_funcs, insert_type_funcs]
  next => simp at h

/-- C5 amended: per-instruction lowering fails with a type mismatch exactly
when the instruction's two operands have different (quote-stripped) declared
types — and this holds for Add exactly as for Compare, because the assertion
lives in the shared binary-lowering helper. -/
theorem C5_type_mismatch_iff_operand_types_differ (b : SierraBuilder) (blockId rid : Nat)
    (rnm rty : String) (pred : Pred) (lhs rhs : Value) :
    (b.lowerInstr blockId (Instr.add rid rnm lhs rhs rty) =
        Except.error Err.typeMismatch ↔
      stripQuotes lhs.tyQuoted ≠ stripQuotes rhs.tyQuoted) ∧
    (b.lowerInstr blockId (Instr.icmp rid rnm pred lhs rhs rty) =
        Except.error Err.typeMismatch ↔
      stripQuotes lhs.tyQuoted ≠ stripQuotes rhs.tyQuoted) := by
  constructor
  · rw [lowerInstr_add_eq]
    exact build_binary_tm_iff b lhs rhs rid rnm rty (rty ++ "_add")
  · cases h : b.build_binary_int_func lhs rhs rid rnm rty (lhs.ty ++ "_" ++ pred.str) with
    | error e =>
      simp only [SierraBuilder.lowerInstr, h, exceptBind_error]
      rw [← build_binary_tm_iff b lhs rhs rid rnm rty (lhs.ty ++ "_" ++ pred.str), h]
    | ok b' =>
      have hty := build_binary_ok_types h
      simp only [SierraBuilder.lowerInstr, h, exceptBind_ok, exceptPure]
      simp [hty]

/-- C4 amended: Add lowering never adds a non-constant-producer libfunc
declaration (its `{type}_add` signature name is used in the emitted statement
but never registered), and a Compare over an operand type already present in
the `funcs` set — for instance a second compare with a different predicate —
also adds no non-constant-producer declaration, because registration is keyed
by `(type, opcode)`, not by the `{type, predicate}` name. -/
theorem C4_add_and_repeat_compare_register_nothing :
    (∀ (b : SierraBuilder) (blockId rid : Nat) (rnm : String) (lhs rhs : Value)
        (rty : String),
      (b.lowerInstr blockId (Instr.add rid rnm lhs rhs rty)).map nonConstDecls =
        (b.lowerInstr blockId (Instr.add rid rnm lhs rhs rty)).map
          (fun _ => nonConstDecls b)) ∧
    (∀ (b : SierraBuilder) (blockId rid : Nat) (rnm : String) (pred : Pred)
        (lhs rhs : Value) (rty : String),
      (lhs.ty, Opcode.icmp) ∈ b.funcs →
      (b.lowerInstr blockId (Instr.icmp rid rnm pred lhs rhs rty)).map nonConstDecls =
        (b.lowerInstr blockId (Instr.icmp rid rnm pred lhs rhs rty)).map
          (fun _ => nonConstDecls b)) := by
  constructor
  · intro b blockId rid rnm lhs rhs rty
    rw [lowerInstr_add_eq]
    cases h : b.build_binary_int_func lhs rhs rid rnm rty (rty ++ "_add") with
    | error e => rfl
    | ok b' => rw [exceptMap_ok, exceptMap_ok, nonConstDecls_build_binary h]
  · intro b blockId rid rnm pred lhs rhs rty hmem
    cases h : b.build_binary_int_func lhs rhs rid rnm rty (lhs.ty ++ "_" ++ pred.str) with
    | error e =>
      simp only [SierraBuilder.lowerInstr, h, exceptBind_error, exceptMap_error]
    | ok b' =>
      have hmem' : (lhs.ty, Opcode.icmp) ∈ b'.funcs := by
        rw [funcs_build_binary h]
        exact hmem
      simp only [SierraBuilder.lowerInstr, h, exceptBind_ok, exceptPure, exceptMap_ok]
      rw [insertNew_mem hmem']
      simp only [Bool.false_eq_true, if_false, List.append_nil]
      rw [show ∀ (c : SierraBuilder) (fs : List (String × Opcode)),
          nonConstDecls { c with funcs := fs } = nonConstDecls c from fun _ _ => rfl]
      rw [nonConstDecls_build_binary h]

/-- C4 amended, witness: a compare over type `i32` lowered in a builder whose
`funcs` set already holds `("i32", ICmp)` leaves the non-constant
declarations unchanged. -/
theorem C4_add_and_repeat_compare_register_nothing_witness :
    (pA.ty, Opcode.icmp) ∈ c4wb.funcs ∧
    (c4wb.lowerInstr 0 (Instr.icmp 7 "z" Pred.ne pA pB "i1")).map nonConstDecls =
      (c4wb.lowerInstr 0 (Instr.icmp 7 "z" Pred.ne pA pB "i1")).map
        (fun _ => nonConstDecls c4wb) :=
  ⟨by decide,
   C4_add_and_repeat_compare_register_nothing.2 c4wb 0 7 "z" Pred.ne pA pB "i1" (by decide)⟩

lemma push_store_temp_varMap (b : SierraBuilder) (lf ty : String)
    (args results : List VarId) :
    (b.push_store_temp_statement lf ty args results).varMap = b.varMap := rfl

lemma push_store_temp_statements (b : SierraBuilder) (lf ty : String)
    (args results : List VarId) :
    (b.push_store_temp_statement lf ty args results).program.statements =
      b.program.statements ++
        [GenStatement.invocation lf args [⟨BranchTarget.fallthrough, results⟩]] := rfl

lemma drainPhis_spec :
    ∀ (l : List (VarId × String × Value)) (b : SierraBuilder),
      l.all (fun t => (b.lookupVar t.2.2).isSome) = true →
      ∃ b', b.drainPhis l = Except.ok b' ∧
        b'.program.statements = b.program.statements ++ l.map (storeStmtOf b) ∧
        b'.varMap = b.varMap
  | [], b, _ => ⟨b, rfl, by simp, rfl⟩
  | (vid, ty, v) :: tl, b, h => by
    simp only [List.all_cons, Bool.and_eq_true] at h
    obtain ⟨h1, h2⟩ := h
    obtain ⟨arg, harg⟩ := Option.isSome_iff_exists.mp h1
    have step : b.drainPhis ((vid, ty, v) :: tl) =
        (b.push_store_temp_statement "store_temp" ty [arg] [vid]).drainPhis tl := by
      simp only [SierraBuilder.drainPhis, harg]
    have hvm : (b.push_store_temp_statement "store_temp" ty [arg] [vid]).varMap = b.varMap :=
      push_store_temp_varMap b "store_temp" ty [arg] [vid]
    have h2' : tl.all
        (fun t => ((b.push_store_temp_statement "store_temp" ty [arg] [vid]).lookupVar
          t.2.2).isSome) = true := by
      simpa [SierraBuilder.lookupVar, hvm] using h2
    obtain ⟨b', hb', hst, hvm'⟩ :=
      drainPhis_spec tl (b.push_store_temp_statement "store_temp" ty [arg] [vid]) h2'
    refine ⟨b', by rw [step]; exact hb', ?_, by rw [hvm', hvm]⟩
    rw [hst, push_store_temp_statements]
    have hmap : tl.map (storeStmtOf (b.push_store_temp_statement "store_temp" ty [arg] [vid])) =
        tl.map (storeStmtOf b) := by
      apply List.map_congr_left
      intro t _
      simp [storeStmtOf, SierraBuilder.lookupVar, hvm]
    rw [hmap]
    have hhd : storeStmtOf b (vid, ty, v) =
        GenStatement.invocation "store_temp" [arg] [⟨BranchTarget.fallthrough, [vid]⟩] := by
      simp [storeStmtOf, harg]
    simp [hhd]

/-- C6: lowering a `Br` in a state where every phi-edge source for the block
is bound succeeds and appends exactly one `store_temp` copy statement per
entry of the block's phi-edge requirement set, all of them placed before the
single branch statement the block emits. -/
theorem C6_phi_copies_drained_before_branch (b : SierraBuilder) (blockId : Nat)
    (cond : Value) (d1 d2 : Nat)
    (h : (phisOf b blockId).all (fun t => (b.lookupVar t.2.2).isSome) = true) :
    isOkB (b.lowerInstr blockId (Instr.br cond d1 d2)) = true ∧
    (okOr (b.lowerInstr blockId (Instr.br cond d1 d2)) b).program.statements =
      b.program.statements ++ (phisOf b blockId).map (storeStmtOf b) ++
        [build_jump_basic_statement "jump" 4294967295 4294967295] := by
  obtain ⟨b', hb', hst, hvm⟩ := drainPhis_spec (phisOf b blockId) b h
  have hb'' : b.drainPhis ((alookup b.jump_to_phi blockId).getD []) = Except.ok b' := hb'
  constructor
  · simp only [SierraBuilder.lowerInstr, hb'', exceptBind_ok, exceptPure, isOkB]
  · simp only [SierraBuilder.lowerInstr, hb'', exceptBind_ok, exceptPure, okOr]
    show b'.program.statements ++ [build_jump_basic_statement "jump" 4294967295 4294967295] =
      b.program.statements ++ (phisOf b blockId).map (storeStmtOf b) ++
        [build_jump_basic_statement "jump" 4294967295 4294967295]
    rw [hst]

/-- C6, witness: in a builder with one pending phi-edge requirement for
block 0 and the source bound, lowering a branch emits the copy statement and
then the placeholder branch. -/
theorem C6_phi_copies_drained_before_branch_witness :
    (phisOf c6wb 0).all (fun t => (c6wb.lookupVar t.2.2).isSome) = true ∧
    isOkB (c6wb.lowerInstr 0 (Instr.br pA 1 2)) = true ∧
    (okOr (c6wb.lowerInstr 0 (Instr.br pA 1 2)) c6wb).program.statements =
      c6wb.program.statements ++ (phisOf c6wb 0).map (storeStmtOf c6wb) ++
        [build_jump_basic_statement "jump" 4294967295 4294967295] :=
  ⟨by decide, (C6_phi_copies_drained_before_branch c6wb 0 pA 1 2 (by decide)).1,
    (C6_phi_copies_drained_before_branch c6wb 0 pA 1 2 (by decide)).2⟩

lemma tyInv_congr {b b' : SierraBuilder} (h1 : b'.types = b.types)
    (h2 : b'.program.type_declarations = b.program.type_declarations) :
    tyInv b → tyInv b' := by
  unfold tyInv
  rw [h1, h2]
  exact id

lemma allocInv_congr {b b' : SierraBuilder} (h3 : b'.allocLog = b.allocLog)
    (h4 : b'.next_var = b.next_var) : allocInv b → allocInv b' := by
  unfold allocInv
  rw [h3, h4]
  exact id

lemma binv_congr {b b' : SierraBuilder} (hb : binv b) (h1 : b'.types = b.types)
    (h2 : b'.program.type_declarations = b.program.type_declarations)
    (h3 : b'.allocLog = b.allocLog) (h4 : b'.next_var = b.next_var) : binv b' :=
  ⟨tyInv_congr h1 h2 hb.1, allocInv_congr h3 h4 hb.2⟩

lemma allocInv_step {b b' : SierraBuilder} (h1 : b'.allocLog = b.allocLog ++ [b.next_var])
    (h2 : b'.next_var = b.next_var + 1) (ha : allocInv b) : allocInv b' := by
  obtain ⟨hc, hl⟩ := ha
  constructor
  · rw [h1]
    refine List.Chain'.append hc (List.chain'_singleton _) ?_
    intro x hx y hy
    simp only [List.head?_cons, Option.mem_def, Option.some.injEq] at hy
    subst hy
    exact hl x hx
  · intro a ha2
    rw [h1, List.getLast?_concat] at ha2
    simp only [Option.mem_def, Option.some.injEq] at ha2
    subst ha2
    rw [h2]

lemma insert_type_allocLog (b : SierraBuilder) (ty : String) :
    (b.insert_type ty).allocLog = b.allocLog := by
  simp only [SierraBuilder.insert_type]
  split <;> rfl

lemma insert_type_next_var (b : SierraBuilder) (ty : String) :
    (b.insert_type ty).next_var = b.next_var := by
  simp only [SierraBuilder.insert_type]
  split <;> rfl

lemma tyInv_insert_type {b : SierraBuilder} (ty : String) (hb : tyInv b) :
    tyInv (b.insert_type ty) := by
  by_cases hmem : stripQuotes ty ∈ b.types
  · rw [insert_type_mem hmem]
    exact hb
  · rw [insert_type_not_mem hmem]
    obtain ⟨h1, h2⟩ := hb
    constructor
    · simp [h1]
    · simp [List.nodup_append, h2, hmem]

lemma binv_insert_type {b : SierraBuilder} (ty : String) (hb : binv b) :
    binv (b.insert_type ty) :=
  ⟨tyInv_insert_type ty hb.1,
   allocInv_congr (insert_type_allocLog b ty) (insert_type_next_var b ty) hb.2⟩

lemma binv_nextVar {b : SierraBuilder} (hb : binv b) : binv b.nextVar.2 :=
  ⟨tyInv_congr rfl rfl hb.1, allocInv_step rfl rfl hb.2⟩

lemma binv_bindVar {b : SierraBuilder} (v : Value) (x : VarId) (hb : binv b) :
    binv (b.bindVar v x) :=
  binv_congr hb rfl rfl rfl rfl

lemma binv_push_simple {b : SierraBuilder} (f : String) (args results : List VarId)
    (hb : binv b) : binv (b.push_simple_basic_statement f args results) :=
  binv_congr hb rfl rfl rfl rfl

lemma binv_push_store_temp {b : SierraBuilder} (lf ty : String) (args results : List VarId)
    (hb : binv b) : binv (b.push_store_temp_statement lf ty args results) :=
  binv_congr hb rfl rfl rfl rfl

lemma binv_add_const {b : SierraBuilder} (val : Value) (ty : String) (hb : binv b) :
    binv (b.add_const_if_const val ty) := by
  cases val
  case constInt cty v =>
    rw [add_const_const_eq]
    exact ⟨tyInv_congr rfl rfl hb.1, allocInv_step rfl rfl hb.2⟩
  all_goals exact hb

lemma binv_insert_param {b : SierraBuilder} (p : Value) (hb : binv b) :
    binv (b.insert_param p) :=
  binv_bindVar _ _ (binv_nextVar (binv_insert_type _ hb))

lemma binv_build_binary {b b' : SierraBuilder} {lhs rhs : Value} {rid : Nat}
    {rnm rty cid : String}
    (h : b.build_binary_int_func lhs rhs rid rnm rty cid = Except.ok b')
    (hb : binv b) : binv b' := by
  have hty := build_binary_ok_types h
  simp only [SierraBuilder.build_binary_int_func] at h
  rw [if_pos hty] at h
  split at h
  next a1 a2 h1 h2 =>
    injection h with h
    subst h
    exact binv_push_simple _ _ _ (binv_bindVar _ _ (binv_nextVar
      (binv_add_const _ _ (binv_add_const _ _ (binv_insert_type _ hb)))))
  next => simp at h

lemma binv_drainPhis :
    ∀ (l : List (VarId × String × Value)) {b b' : SierraBuilder},
      b.drainPhis l = Except.ok b' → binv b → binv b'
  | [], b, b', h, hb => by
    injection h with h
    subst h
    exact hb
  | (vid, ty, v) :: tl, b, b', h, hb => by
    cases hlv : b.lookupVar v with
    | none =>
      simp only [SierraBuilder.drainPhis, hlv] at h
      exact Except.noConfusion h
    | some arg =>
      simp only [SierraBuilder.drainPhis, hlv] at h
      exact binv_drainPhis tl h (binv_push_store_temp _ _ _ _ hb)

lemma binv_lowerInstr {b b' : SierraBuilder} {blockId : Nat} {instr : Instr}
    (h : b.lowerInstr blockId instr = Except.ok b') (hb : binv b) : binv b' := by
  cases instr with
  | icmp rid rnm pred lhs rhs rty =>
    cases hbb : b.build_binary_int_func lhs rhs rid rnm rty (lhs.ty ++ "_" ++ pred.str) with
    | error e =>
      simp only [SierraBuilder.lowerInstr, hbb, exceptBind_error] at h
      exact Except.noConfusion h
    | ok b1 =>
      simp only [SierraBuilder.lowerInstr, hbb, exceptBind_ok, exceptPure] at h
      injection h with h
      subst h
      exact binv_congr (binv_build_binary hbb hb) rfl rfl rfl rfl
  | add rid rnm lhs rhs rty =>
    rw [lowerInstr_add_eq] at h
    exact binv_build_binary h hb
  | br cond d1 d2 =>
    cases hd : b.drainPhis ((alookup b.jump_to_phi blockId).getD []) with
    | error e =>
      simp only [SierraBuilder.lowerInstr, hd, exceptBind_error] at h
      exact Except.noConfusion h
    | ok b1 =>
      simp only [SierraBuilder.lowerInstr, hd, exceptBind_ok, exceptPure] at h
      injection h with h
      subst h
      exact binv_congr (binv_drainPhis _ hd hb) rfl rfl rfl rfl
  | ret ops =>
    cases hm : ops.mapM (fun op =>
        match b.lookupVar op with
        | some v => pure v
        | none => Except.error Err.unboundValue) with
    | error e =>
      simp only [SierraBuilder.lowerInstr] at h
      rw [hm, exceptBind_error] at h
      exact Except.noConfusion h
    | ok vars =>
      simp only [SierraBuilder.lowerInstr] at h
      rw [hm, exceptBind_ok] at h
      injection h with h
      subst h
      exact binv_congr hb rfl rfl rfl rfl
  | phi rid rnm rty incs =>
    simp only [SierraBuilder.lowerInstr, exceptPure] at h
    injection h with h
    subst h
    exact hb
  | unsupported =>
    simp only [SierraBuilder.lowerInstr, exceptPure] at h
    injection h with h
    subst h
    exact hb

lemma binv_lowerInstrs :
    ∀ (is : List Instr) {b b' : SierraBuilder} {blockId : Nat},
      b.lowerInstrs blockId is = Except.ok b' → binv b → binv b'
  | [], b, b', _, h, hb => by
    injection h with h
    subst h
    exact hb
  | i :: is, b, b', blockId, h, hb => by
    cases hi : b.lowerInstr blockId i with
    | error e =>
      simp only [SierraBuilder.lowerInstrs, hi, exceptBind_error] at h
      exact Except.noConfusion h
    | ok b1 =>
      simp only [SierraBuilder.lowerInstrs, hi, exceptBind_ok] at h
      exact binv_lowerInstrs is h (binv_lowerInstr hi hb)

lemma binv_lowerBlock {b b' : SierraBuilder} {blk : Block}
    (h : b.lowerBlock blk = Except.ok b') (hb : binv b) : binv b' := by
  unfold SierraBuilder.lowerBlock at h
  exact binv_lowerInstrs blk.instrs h (binv_congr hb rfl rfl rfl rfl)

lemma binv_lowerBlocks :
    ∀ (bs : List Block) {b b' : SierraBuilder},
      b.lowerBlocks bs = Except.ok b' → binv b → binv b'
  | [], b, b', h, hb => by
    injection h with h
    subst h
    exact hb
  | blk :: bs, b, b', h, hb => by
    cases hblk : b.lowerBlock blk with
    | error e =>
      simp only [SierraBuilder.lowerBlocks, hblk, exceptBind_error] at h
      exact Except.noConfusion h
    | ok b1 =>
      simp only [SierraBuilder.lowerBlocks, hblk, exceptBind_ok] at h
      exact binv_lowerBlocks bs h (binv_lowerBlock hblk hb)

lemma binv_foldl_insert_param :
    ∀ (ps : List Value) (b : SierraBuilder), binv b →
      binv (ps.foldl SierraBuilder.insert_param b)
  | [], _, hb => hb
  | p :: ps, b, hb => binv_foldl_insert_param ps (b.insert_param p) (binv_insert_param p hb)

lemma binv_lowerFunction {b b' : SierraBuilder} {f : LlvmFunction}
    (h : b.lowerFunction f = Except.ok b') (hb : binv b) : binv b' := by
  unfold SierraBuilder.lowerFunction at h
  exact binv_lowerBlocks f.blocks h (binv_foldl_insert_param f.params b hb)

lemma binv_mainPass :
    ∀ (fns : List LlvmFunction) {b b' : SierraBuilder},
      b.mainPass fns = Except.ok b' → binv b → binv b'
  | [], b, b', h, hb => by
    injection h with h
    subst h
    exact hb
  | f :: fns, b, b', h, hb => by
    cases hf : b.lowerFunction f with
    | error e =>
      simp only [SierraBuilder.mainPass, hf, exceptBind_error] at h
      exact Except.noConfusion h
    | ok b1 =>
      simp only [SierraBuilder.mainPass, hf, exceptBind_ok] at h
      exact binv_mainPass fns h (binv_lowerFunction hf hb)

lemma binv_resolve {b b' : SierraBuilder} (h : b.resolve = Except.ok b')
    (hb : binv b) : binv b' := by
  unfold SierraBuilder.resolve at h
  cases hm : b.program.statements.mapM b.resolveStatement with
  | error e =>
    simp only [hm, exceptBind_error] at h
    exact Except.noConfusion h
  | ok sts =>
    simp only [hm, exceptBind_ok, exceptPure] at h
    injection h with h
    subst h
    exact binv_congr hb rfl rfl rfl rfl

lemma prePassIncs_inv_fields (rid : Nat) (rty rnm : String) :
    ∀ (incs : List (Value × Nat)) (b : SierraBuilder) (fv : Nat),
      (b.prePassIncs rid rty rnm incs fv).2.types = b.types ∧
      (b.prePassIncs rid rty rnm incs fv).2.program.type_declarations =
        b.program.type_declarations ∧
      (b.prePassIncs rid rty rnm incs fv).2.allocLog = b.allocLog
  | [], b, fv => ⟨rfl, rfl, rfl⟩
  | (v, pred) :: tl, b, fv => by
    have step : b.prePassIncs rid rty rnm ((v, pred) :: tl) fv =
        SierraBuilder.prePassIncs _ rid rty rnm tl (fv + 1) := rfl
    rw [step]
    exact ⟨((prePassIncs_inv_fields rid rty rnm tl _ (fv + 1)).1).trans rfl,
      ((prePassIncs_inv_fields rid rty rnm tl _ (fv + 1)).2.1).trans rfl,
      ((prePassIncs_inv_fields rid rty rnm tl _ (fv + 1)).2.2).trans rfl⟩

lemma prePassInstrs_inv_fields :
    ∀ (is : List Instr) (b : SierraBuilder) (fv : Nat),
      (b.prePassInstrs is fv).2.types = b.types ∧
      (b.prePassInstrs is fv).2.program.type_declarations = b.program.type_declarations ∧
      (b.prePassInstrs is fv).2.allocLog = b.allocLog
  | [], b, fv => ⟨rfl, rfl, rfl⟩
  | Instr.phi rid rnm rty incs :: rest, b, fv => by
    have step : b.prePassInstrs (Instr.phi rid rnm rty incs :: rest) fv =
        (b.prePassIncs rid rty rnm incs fv).2.prePassInstrs rest
          (b.prePassIncs rid rty rnm incs fv).1 := rfl
    rw [step]
    obtain ⟨u1, u2, u3⟩ := prePassIncs_inv_fields rid rty rnm incs b fv
    obtain ⟨w1, w2, w3⟩ := prePassInstrs_inv_fields rest
      (b.prePassIncs rid rty rnm incs fv).2 (b.prePassIncs rid rty rnm incs fv).1
    exact ⟨w1.trans u1, w2.trans u2, w3.trans u3⟩
  | Instr.icmp a b' c d e f :: rest, b, fv => prePassInstrs_inv_fields rest b fv
  | Instr.add a b' c d e :: rest, b, fv => prePassInstrs_inv_fields rest b fv
  | Instr.br a c d :: rest, b, fv => prePassInstrs_inv_fields rest b fv
  | Instr.ret a :: rest, b, fv => prePassInstrs_inv_fields rest b fv
  | Instr.unsupported :: rest, b, fv => prePassInstrs_inv_fields rest b fv

lemma prePassBlocks_inv_fields :
    ∀ (bs : List Block) (b : SierraBuilder) (fv : Nat),
      (b.prePassBlocks bs fv).2.types = b.types ∧
      (b.prePassBlocks bs fv).2.program.type_declarations = b.program.type_declarations ∧
      (b.prePassBlocks bs fv).2.allocLog = b.allocLog
  | [], b, fv => ⟨rfl, rfl, rfl⟩
  | blk :: bs, b, fv => by
    have step : b.prePassBlocks (blk :: bs) fv =
        (b.prePassInstrs blk.instrs fv).2.prePassBlocks bs
          (b.prePassInstrs blk.instrs fv).1 := rfl
    rw [step]
    obtain ⟨u1, u2, u3⟩ := prePassInstrs_inv_fields blk.instrs b fv
    obtain ⟨w1, w2, w3⟩ := prePassBlocks_inv_fields bs
      (b.prePassInstrs blk.instrs fv).2 (b.prePassInstrs blk.instrs fv).1
    exact ⟨w1.trans u1, w2.trans u2, w3.trans u3⟩

lemma prePass_inv_fields :
    ∀ (fns : List LlvmFunction) (b : SierraBuilder),
      (b.prePass fns).types = b.types ∧
      (b.prePass fns).program.type_declarations = b.program.type_declarations ∧
      (b.prePass fns).allocLog = b.allocLog
  | [], b => ⟨rfl, rfl, rfl⟩
  | f :: fns, b => by
    have step : b.prePass (f :: fns) = (b.prePassFun f).prePass fns := rfl
    rw [step]
    obtain ⟨u1, u2, u3⟩ := prePassBlocks_inv_fields f.blocks b f.params.length
    obtain ⟨w1, w2, w3⟩ := prePass_inv_fields fns (b.prePassFun f)
    refine ⟨w1.trans ?_, w2.trans ?_, w3.trans ?_⟩
    · exact u1
    · exact u2
    · exact u3

lemma binv_of_empty_fields {b : SierraBuilder} (h1 : b.types = [])
    (h2 : b.program.type_declarations = []) (h3 : b.allocLog = []) : binv b := by
  refine ⟨⟨?_, ?_⟩, ?_, ?_⟩
  · rw [h1, h2]
    rfl
  · rw [h1]
    exact List.nodup_nil
  · rw [h3]
    exact List.chain'_nil
  · intro a ha
    rw [h3] at ha
    simp at ha

lemma binv_compile {fns : List LlvmFunction} {b : SierraBuilder}
    (h : compile fns = Except.ok b) : binv b := by
  unfold compile at h
  cases hm : (initBuilder.prePass fns).mainPass fns with
  | error e =>
    simp only [hm, exceptBind_error] at h
    exact Except.noConfusion h
  | ok b1 =>
    simp only [hm, exceptBind_ok] at h
    obtain ⟨u1, u2, u3⟩ := prePass_inv_fields fns initBuilder
    exact binv_resolve h (binv_mainPass fns hm (binv_of_empty_fields u1 u2 u3))

/-- C7: for any successfully compiled program the type-declaration ids, in
artifact order, are exactly the `types` registry in first-discovery order,
they contain no duplicate name, and repeating `insert_type` for any name
already in the registry is a no-op on the whole builder. -/
theorem C7_type_registry_dedup_ordered (fns : List LlvmFunction) (b : SierraBuilder)
    (h : compile fns = Except.ok b) :
    b.program.type_declarations.map (fun d => d.id) = b.types ∧
    (b.program.type_declarations.map (fun d => d.id)).Nodup ∧
    ∀ ty, stripQuotes ty ∈ b.types → b.insert_type ty = b := by
  obtain ⟨⟨h1, h2⟩, _⟩ := binv_compile h
  exact ⟨h1, by rw [h1]; exact h2, fun ty hm => insert_type_mem hm⟩

/-- C7, witness: the two-parameter function declares `i32` exactly once. -/
theorem C7_type_registry_dedup_ordered_witness :
    compile [c7fn] = Except.ok c7b ∧
    (c7b.program.type_declarations.map (fun d => d.id)).Nodup :=
  ⟨rfl, (C7_type_registry_dedup_ordered [c7fn] c7b rfl).2.1⟩

lemma chain_succ_pairwise_lt {l : List Nat} (h : l.Chain' (fun x y => y = x + 1)) :
    l.Pairwise (· < ·) := by
  have h2 : l.Chain' (· < ·) := h.imp (by intro a b hab; omega)
  exact List.chain'_iff_pairwise.mp h2

/-- C8: over a whole successful lowering run, the ids handed out by the
allocator (recorded in the ghost `allocLog`) are consecutive — each call
returns one more than the previous call — hence strictly increasing with no
repeats. -/
theorem C8_allocator_ids_strictly_increasing (fns : List LlvmFunction) (b : SierraBuilder)
    (h : compile fns = Except.ok b) :
    b.allocLog.Chain' (fun x y => y = x + 1) ∧ b.allocLog.Pairwise (· < ·) := by
  obtain ⟨_, hc, _⟩ := binv_compile h
  exact ⟨hc, chain_succ_pairwise_lt hc⟩

/-- C8, witness: the double-add program allocates ids `1, 2, 3, 4, 5`. -/
theorem C8_allocator_ids_strictly_increasing_witness :
    compile [c9fn] = Except.ok c9b ∧ c9b.allocLog.Chain' (fun x y => y = x + 1) :=
  ⟨rfl, (C8_allocator_ids_strictly_increasing [c9fn] c9b rfl).1⟩

end LlvmToSierra
